import Mathlib

/-!
A shallow embedding of the JWZ token implementation (src/jwz.ts) and proofs
about it.  JavaScript values that flow through the code (parsed JSON, header
objects, proof objects) are modelled by the inductive type `JSVal`; JavaScript
platform builtins used by the source (`JSON.parse`, `JSON.stringify`, `atob`,
`btoa`, `TextEncoder.encode`, `Object.keys`, property access, truthiness) are
modelled by executable Lean functions below.  Fallible operations return
`Option` or `Except JwzError`; a `none`/`.error` models a thrown exception.
-/

namespace Jwz

/-- A JavaScript value: `vUndefined` models `undefined` (never produced by JSON
parsing, but produced by property access on a missing key); objects are
insertion-ordered association lists, as JavaScript objects preserve insertion
order. -/
inductive JSVal where
  | vUndefined : JSVal
  | vNull : JSVal
  | vBool : Bool → JSVal
  | vNum : Int → JSVal
  | vStr : String → JSVal
  | vArr : List JSVal → JSVal
  | vObj : List (String × JSVal) → JSVal

/-- JavaScript truthiness of a value (used by the source's `!x` checks). -/
def jsTruthy : JSVal → Bool
  | .vUndefined => false
  | .vNull => false
  | .vBool b => b
  | .vNum n => !(n == 0)
  | .vStr s => !(s == "")
  | .vArr _ => true
  | .vObj _ => true

/-- Truthiness of a possibly-undefined string field (`undefined` and the empty
string are falsy). -/
def jsTruthyStrOpt : Option String → Bool
  | none => false
  | some s => !(s == "")

/-- JavaScript property access `base[key]`: `none` models the TypeError thrown
when the base is `null` or `undefined`; otherwise the result is the property
value, `vUndefined` when the key is missing.  Arrays and strings expose numeric
indices, as in JavaScript. -/
def jsGet : JSVal → String → Option JSVal
  | .vUndefined, _ => none
  | .vNull, _ => none
  | .vObj fs, k =>
    some (match fs.find? (fun p => p.1 == k) with
          | some p => p.2
          | none => .vUndefined)
  | .vArr xs, k =>
    some (match k.toNat? with
          | some i => xs.getD i .vUndefined
          | none => .vUndefined)
  | .vStr s, k =>
    some (match k.toNat? with
          | some i =>
            if i < s.data.length then .vStr (String.mk [s.data.getD i ' ']) else .vUndefined
          | none => .vUndefined)
  | .vBool _, _ => some .vUndefined
  | .vNum _, _ => some .vUndefined

/-- JavaScript `Object.keys`: throws (`none`) on `null`/`undefined`; on an
array it returns the index strings `"0"`, `"1"`, …; on an object the keys in
insertion order; on a string the index strings; on other primitives `[]`. -/
def jsObjectKeys : JSVal → Option (List String)
  | .vUndefined => none
  | .vNull => none
  | .vObj fs => some (fs.map (fun p => p.1))
  | .vArr xs => some ((List.range xs.length).map (fun i => toString i))
  | .vStr s => some ((List.range s.data.length).map (fun i => toString i))
  | .vBool _ => some []
  | .vNum _ => some []

/-- JavaScript string coercion of a value, as used in template literals for
error messages (arrays are approximated by the empty string; no error content
in the claims depends on it). -/
def jsToString : JSVal → String
  | .vUndefined => "undefined"
  | .vNull => "null"
  | .vBool true => "true"
  | .vBool false => "false"
  | .vNum n => toString n
  | .vStr s => s
  | .vArr _ => ""
  | .vObj _ => "[object Object]"

/-- The opening-brace character, written via its code point. -/
def lbraceChar : Char := Char.ofNat 123

/-- The closing-brace character, written via its code point. -/
def rbraceChar : Char := Char.ofNat 125

/-- Hexadecimal digit for a value below 16. -/
def hexDigit (n : Nat) : Char := if n < 10 then Char.ofNat (48 + n) else Char.ofNat (87 + n)

/-- JSON string escaping of a single character, as `JSON.stringify` performs. -/
def escapeCharJson (c : Char) : List Char :=
  if c = '"' then ['\\', '"']
  else if c = '\\' then ['\\', '\\']
  else if c = '\n' then ['\\', 'n']
  else if c = '\t' then ['\\', 't']
  else if c = '\r' then ['\\', 'r']
  else if c.toNat = 8 then ['\\', 'b']
  else if c.toNat = 12 then ['\\', 'f']
  else if c.toNat < 32 then ['\\', 'u', '0', '0', hexDigit (c.toNat / 16), hexDigit (c.toNat % 16)]
  else [c]

/-- A JSON-quoted string literal. -/
def quoteJson (s : String) : String :=
  String.mk ('"' :: (s.data.map escapeCharJson).flatten ++ ['"'])

mutual

/-- `JSON.stringify`, modelled on `JSVal`.  (`vUndefined` renders as `null`; the
values the source stringifies — header objects and parsed/produced proof
objects — never contain `vUndefined`.) -/
def JSVal.stringify : JSVal → String
  | .vUndefined => "null"
  | .vNull => "null"
  | .vBool true => "true"
  | .vBool false => "false"
  | .vNum n => toString n
  | .vStr s => quoteJson s
  | .vArr xs => "[" ++ stringifyElems xs ++ "]"
  | .vObj fs => "\x7b" ++ stringifyMembers fs ++ "\x7d"

/-- Comma-joined stringification of array elements. -/
def stringifyElems : List JSVal → String
  | [] => ""
  | [v] => JSVal.stringify v
  | v :: vs => JSVal.stringify v ++ "," ++ stringifyElems vs

/-- Comma-joined stringification of object members. -/
def stringifyMembers : List (String × JSVal) → String
  | [] => ""
  | [(k, v)] => quoteJson k ++ ":" ++ JSVal.stringify v
  | (k, v) :: fs => quoteJson k ++ ":" ++ JSVal.stringify v ++ "," ++ stringifyMembers fs

end

/-- JSON whitespace predicate (space, tab, newline, carriage return). -/
def isJsonWs (c : Char) : Bool := c == ' ' || c == '\t' || c == '\n' || c == '\r'

/-- Skip leading JSON whitespace. -/
def skipWs : List Char → List Char
  | [] => []
  | c :: cs => if isJsonWs c then skipWs cs else c :: cs

/-- Decode a JSON escape character (after a backslash).  `\u` escapes are not
modelled; no input in this development uses them. -/
def escDecode (e : Char) : Option Char :=
  if e = '"' then some '"'
  else if e = '\\' then some '\\'
  else if e = '/' then some '/'
  else if e = 'n' then some '\n'
  else if e = 't' then some '\t'
  else if e = 'r' then some '\r'
  else if e = 'b' then some (Char.ofNat 8)
  else if e = 'f' then some (Char.ofNat 12)
  else none

/-- Parse the body of a JSON string literal (the opening quote already
consumed), returning the decoded content and the remaining input. -/
def parseJsonStringAux : List Char → Option (String × List Char)
  | [] => none
  | c :: rest =>
    if c = '"' then some ("", rest)
    else if c = '\\' then
      match rest with
      | [] => none
      | e :: rest2 =>
        match escDecode e, parseJsonStringAux rest2 with
        | some d, some (s, r) => some (String.mk (d :: s.data), r)
        | _, _ => none
    else if c.toNat < 32 then none
    else
      match parseJsonStringAux rest with
      | some (s, r) => some (String.mk (c :: s.data), r)
      | none => none

/-- Split a leading run of decimal digits from the input. -/
def takeDigits : List Char → (List Char × List Char)
  | [] => ([], [])
  | c :: cs =>
    if c.isDigit then
      match takeDigits cs with
      | (ds, r) => (c :: ds, r)
    else ([], c :: cs)

/-- Numeric value of a digit run. -/
def digitsToNat (ds : List Char) : Nat :=
  ds.foldl (fun a c => a * 10 + (c.toNat - 48)) 0

/-- Insert a member into a JSON object under construction: a repeated key
overwrites the earlier value in place, as in JavaScript. -/
def objInsert (fs : List (String × JSVal)) (k : String) (v : JSVal) : List (String × JSVal) :=
  if fs.any (fun p => p.1 == k) then fs.map (fun p => if p.1 == k then (k, v) else p)
  else fs ++ [(k, v)]

mutual

/-- Fuel-indexed recursive-descent JSON value parser modelling `JSON.parse`
(restricted to integer numerals, without `\u` string escapes; all JSON texts
in this development are within the fragment). -/
def parseJsonVal : Nat → List Char → Option (JSVal × List Char)
  | 0, _ => none
  | Nat.succ fuel, cs =>
    match skipWs cs with
    | [] => none
    | c :: rest =>
      if c = lbraceChar then parseObjBody fuel rest
      else if c = '[' then parseArrBody fuel rest
      else if c = '"' then
        match parseJsonStringAux rest with
        | some (s, r) => some (JSVal.vStr s, r)
        | none => none
      else if c = 'n' then
        match rest with
        | 'u' :: 'l' :: 'l' :: r => some (.vNull, r)
        | _ => none
      else if c = 't' then
        match rest with
        | 'r' :: 'u' :: 'e' :: r => some (.vBool true, r)
        | _ => none
      else if c = 'f' then
        match rest with
        | 'a' :: 'l' :: 's' :: 'e' :: r => some (.vBool false, r)
        | _ => none
      else if c = '-' then
        match takeDigits rest with
        | ([], _) => none
        | (ds, r) => some (.vNum (-(Int.ofNat (digitsToNat ds))), r)
      else if c.isDigit then
        match takeDigits (c :: rest) with
        | (ds, r) => some (.vNum (Int.ofNat (digitsToNat ds)), r)
      else none

/-- Parse an array body (the opening bracket already consumed). -/
def parseArrBody : Nat → List Char → Option (JSVal × List Char)
  | 0, _ => none
  | Nat.succ fuel, cs =>
    match skipWs cs with
    | ']' :: r => some (.vArr [], r)
    | _ => parseArrElems fuel cs []

/-- Parse the comma-separated elements of a nonempty array body. -/
def parseArrElems : Nat → List Char → List JSVal → Option (JSVal × List Char)
  | 0, _, _ => none
  | Nat.succ fuel, cs, acc =>
    match parseJsonVal fuel cs with
    | none => none
    | some (v, r) =>
      match skipWs r with
      | ',' :: r2 => parseArrElems fuel r2 (acc ++ [v])
      | ']' :: r2 => some (.vArr (acc ++ [v]), r2)
      | _ => none

/-- Parse an object body (the opening brace already consumed). -/
def parseObjBody : Nat → List Char → Option (JSVal × List Char)
  | 0, _ => none
  | Nat.succ fuel, cs =>
    match skipWs cs with
    | [] => none
    | c :: r => if c = rbraceChar then some (.vObj [], r) else parseObjMembers fuel cs []

/-- Parse the comma-separated members of a nonempty object body. -/
def parseObjMembers : Nat → List Char → List (String × JSVal) → Option (JSVal × List Char)
  | 0, _, _ => none
  | Nat.succ fuel, cs, acc =>
    match skipWs cs with
    | '"' :: r =>
      match parseJsonStringAux r with
      | none => none
      | some (k, r2) =>
        match skipWs r2 with
        | ':' :: r3 =>
          match parseJsonVal fuel r3 with
          | none => none
          | some (v, r4) =>
            match skipWs r4 with
            | ',' :: r5 => parseObjMembers fuel r5 (objInsert acc k v)
            | c :: r5 => if c = rbraceChar then some (.vObj (objInsert acc k v), r5) else none
            | [] => none
        | _ => none
    | _ => none

end

/-- `JSON.parse`, modelled by running the fuel-indexed parser with enough
fuel for the input and requiring that only whitespace remains. -/
def jsonParse (s : String) : Option JSVal :=
  match parseJsonVal (s.length + 2) s.data with
  | some (v, rest) => if skipWs rest = [] then some v else none
  | none => none

/-- The base64 alphabet, in index order. -/
def b64Alphabet : List Char :=
  "ABCDEFGHIJKLMNOPQRSTUVWXYZabcdefghijklmnopqrstuvwxyz0123456789+/".data

/-- The base64 character for a 6-bit value. -/
def b64Char (n : Nat) : Char := b64Alphabet.getD n 'A'

/-- The 6-bit value of a base64 character, `none` when the character is not
in the alphabet. -/
def b64Index (c : Char) : Option Nat := b64Alphabet.findIdx? (fun x => x == c)

/-- Base64 encoding of a byte list, with padding. -/
def btoaBytes : List Nat → List Char
  | [] => []
  | [b1] => [b64Char (b1 / 4), b64Char (b1 % 4 * 16), '=', '=']
  | [b1, b2] => [b64Char (b1 / 4), b64Char (b1 % 4 * 16 + b2 / 16), b64Char (b2 % 16 * 4), '=']
  | b1 :: b2 :: b3 :: rest =>
    b64Char (b1 / 4) :: b64Char (b1 % 4 * 16 + b2 / 16) ::
      b64Char (b2 % 16 * 4 + b3 / 64) :: b64Char (b3 % 64) :: btoaBytes rest

/-- JavaScript `btoa`: base64-encode a string of Latin-1 code points; throws
(`none`) when a character exceeds code point 255. -/
def btoa (s : String) : Option String :=
  if s.data.all (fun c => c.toNat < 256) then
    some (String.mk (btoaBytes (s.data.map Char.toNat)))
  else none

/-- Base64 decoding of a whitespace- and padding-free character list into
bytes; `none` when a character is outside the alphabet or the trailing group
has length 1. -/
def atobGroups : List Char → Option (List Nat)
  | [] => some []
  | [_] => none
  | [c1, c2] =>
    match b64Index c1, b64Index c2 with
    | some n1, some n2 => some [n1 * 4 + n2 / 16]
    | _, _ => none
  | [c1, c2, c3] =>
    match b64Index c1, b64Index c2, b64Index c3 with
    | some n1, some n2, some n3 => some [n1 * 4 + n2 / 16, n2 % 16 * 16 + n3 / 4]
    | _, _, _ => none
  | c1 :: c2 :: c3 :: c4 :: rest =>
    match b64Index c1, b64Index c2, b64Index c3, b64Index c4, atobGroups rest with
    | some n1, some n2, some n3, some n4, some bs =>
      some ((n1 * 4 + n2 / 16) :: (n2 % 16 * 16 + n3 / 4) :: (n3 % 4 * 64 + n4) :: bs)
    | _, _, _, _, _ => none

/-- ASCII whitespace stripped by `atob` (forgiving-base64). -/
def isAtobWs (c : Char) : Bool :=
  c == ' ' || c == '\t' || c == '\n' || c == '\r' || c.toNat == 12

/-- JavaScript `atob`: forgiving base64 decode.  Strips ASCII whitespace,
strips up to two trailing padding characters when the length is a multiple of
four, then rejects (`none`, modelling the thrown InvalidCharacterError) any
remaining padding, a residual length of 1 mod 4, or characters outside the
alphabet. -/
def atob (s : String) : Option String :=
  let cs := s.data.filter (fun c => !(isAtobWs c))
  let cs2 :=
    if cs.length % 4 == 0 then
      match cs.reverse with
      | '=' :: '=' :: r => r.reverse
      | '=' :: r => r.reverse
      | _ => cs
    else cs
  if cs2.any (fun c => c == '=') then none
  else if cs2.length % 4 == 1 then none
  else
    match atobGroups cs2 with
    | some bytes => some (String.mk (bytes.map Char.ofNat))
    | none => none

/-- UTF-8 encoding of a single character. -/
def utf8Bytes (c : Char) : List Nat :=
  let n := c.toNat
  if n < 128 then [n]
  else if n < 2048 then [192 + n / 64, 128 + n % 64]
  else if n < 65536 then [224 + n / 4096, 128 + n / 64 % 64, 128 + n % 64]
  else [240 + n / 262144, 128 + n / 4096 % 64, 128 + n / 64 % 64, 128 + n % 64]

/-- `new TextEncoder().encode(s)`: the UTF-8 bytes of a string. -/
def textEncode (s : String) : List Nat := (s.data.map utf8Bytes).flatten

/-- Modelled from the spec: `toLittleEndian` is imported from `src/core/util`,
which is not under `src/`.  Per §4.1 the hash integer is serialized to a
fixed-width little-endian byte sequence; the width is fixed here at 32 bytes. -/
def toLittleEndian (n : Nat) : List Nat :=
  (List.range 32).map (fun i => n / 256 ^ i % 256)

/-- JavaScript `String.split` with a single-character separator, char-list
level: splitting the empty string gives one empty segment, as in JavaScript. -/
def splitOnChar (sep : Char) : List Char → List (List Char)
  | [] => [[]]
  | c :: cs =>
    if c = sep then [] :: splitOnChar sep cs
    else
      match splitOnChar sep cs with
      | r :: rs => (c :: r) :: rs
      | [] => [[c]]

/-- JavaScript `s.split('.')`. -/
def jsSplitDot (s : String) : List String := (splitOnChar '.' s.data).map String.mk

/-- The errors the embedded operations can surface.  The first six correspond
to the thrown error messages in `src/jwz.ts`; the rest model exceptions raised
by platform builtins (`typeError`, `invalidCharacterError`) or rejected
promises of external collaborators (`hashError`, `methodProveError`,
`methodVerifyError`), and `headerParseError` a `JSON.parse` failure on the
protected-headers text. -/
inductive JwzError where
  | missingPayload : JwzError
  | criticalHeaderMissing : String → JwzError
  | unknownProvingMethod : String → JwzError
  | invalidCompactSegments : JwzError
  | malformedProof : JwzError
  | serializationIncomplete : JwzError
  | prepareFunctionMissing : JwzError
  | headerParseError : JwzError
  | typeError : JwzError
  | invalidCharacterError : JwzError
  | hashError : JwzError
  | methodProveError : JwzError
  | methodVerifyError : JwzError
  deriving DecidableEq

/-- The source's `headerType` constant. -/
def headerType : String := "typ"

/-- The source's `headerCritical` constant. -/
def headerCritical : String := "crit"

/-- The source's `headerAlg` constant. -/
def headerAlg : String := "alg"

/-- The source's `headerCircuitId` constant. -/
def headerCircuitId : String := "circuitId"

/-- The external ProvingMethod collaborator: identified by `alg`, bound to one
`circuitId`, with fallible `prove` and `verify` strategies (a `none` result
models a rejected promise). -/
structure ProvingMethod where
  alg : String
  circuitId : String
  prove : List Nat → List Nat → List Nat → Option JSVal
  verify : List Nat → JSVal → List Nat → Option Bool

/-- The caller-supplied inputs-preparer collaborator
(`ProofInputsPreparerHandlerFunc`): maps (message hash, circuitId) to circuit
inputs. -/
def ProofInputsPreparerHandlerFunc : Type := List Nat → JSVal → List Nat

/-- Modelled from the spec: `prepare` is imported from `src/proving`, which is
not under `src/`.  Per §4.4 step 3 and §6 it invokes the preparer collaborator
with the hash and the circuit identifier — a pure mapping. -/
def prepare (preparer : ProofInputsPreparerHandlerFunc) (msgHash : List Nat)
    (circuitId : JSVal) : List Nat :=
  preparer msgHash circuitId

/-- A JWZ `Token` (the class's mutable state).  The `raw` sub-object's fields
are inlined with a `raw` prefix: the constructor always sets `raw.header` and
`raw.payload`, so those are total, while `raw.protectedHeaders` and `raw.zkp`
start `undefined` (`none`).  `alg` and `circuitId` hold whatever JavaScript
value was last assigned (strings at construction, arbitrary parsed header
values after `sanitized`).  `zkProof` is initialized to the empty object. -/
structure Token where
  alg : JSVal
  circuitId : JSVal
  rawPayload : String
  rawProtectedHeaders : Option String
  rawHeader : List (String × JSVal)
  rawZkp : Option String
  zkProof : JSVal
  method : ProvingMethod
  inputsPreparer : Option ProofInputsPreparerHandlerFunc

/-- The source's `getDefaultHeaders`, in the object-literal insertion order
(`alg`, `crit`, `circuitId`, `typ`). -/
def getDefaultHeaders (alg circuitId : JSVal) : List (String × JSVal) :=
  [(headerAlg, alg),
   (headerCritical, .vArr [.vStr headerCircuitId]),
   (headerCircuitId, circuitId),
   (headerType, .vStr "JWZ")]

/-- The `Token` constructor: copies `alg`/`circuitId` from the method, sets the
default headers and the payload, leaves `raw.protectedHeaders` and `raw.zkp`
undefined, and initializes `zkProof` to the empty object. -/
def Token.new (method : ProvingMethod) (payload : String)
    (inputsPreparer : Option ProofInputsPreparerHandlerFunc) : Token :=
  { alg := .vStr method.alg
    circuitId := .vStr method.circuitId
    rawPayload := payload
    rawProtectedHeaders := none
    rawHeader := getDefaultHeaders (.vStr method.alg) (.vStr method.circuitId)
    rawZkp := none
    zkProof := .vObj []
    method := method
    inputsPreparer := inputsPreparer }

/-- The source's `setHeader`: assigns a header key on `raw.header`. -/
def Token.setHeader (t : Token) (key : String) (value : JSVal) : Token :=
  { t with rawHeader := objInsert t.rawHeader key value }

/-- The raw (untrusted) token, as produced by parsing. -/
structure RawJSONWebZeroknowledge where
  payload : String
  protectedHeaders : String
  header : JSVal
  zkp : String

/-- `RawJSONWebZeroknowledge.sanitized`, translated line by line.  The proving
method registry (`getProvingMethod` from `src/proving`, not under `src/`) is
passed in as `getMethod`, per §4.2 step 4 / §6: resolution failure is the
`UnknownProvingMethod` validation error.  Note the source iterates
`Object.keys(criticalHeaders)` — for an array-valued `crit` these are the
index strings, not the listed names. -/
def RawJSONWebZeroknowledge.sanitized (getMethod : JSVal → Option ProvingMethod)
    (r : RawJSONWebZeroknowledge) : Except JwzError Token :=
  if r.payload = "" then .error .missingPayload
  else
    match jsonParse r.protectedHeaders with
    | none => .error .headerParseError
    | some headers =>
      match jsGet headers headerCritical with
      | none => .error .typeError
      | some criticalHeaders =>
        match jsObjectKeys criticalHeaders with
        | none => .error .typeError
        | some keys =>
          match keys.find? (fun key => !(jsTruthy ((jsGet headers key).getD .vUndefined))) with
          | some key => .error (.criticalHeaderMissing key)
          | none =>
            let alg := (jsGet headers headerAlg).getD .vUndefined
            match getMethod alg with
            | none => .error (.unknownProvingMethod (jsToString alg))
            | some method =>
              let circuitId := (jsGet headers headerCircuitId).getD .vUndefined
              match jsonParse r.zkp with
              | none => .error .malformedProof
              | some zkp =>
                let token := Token.new method r.payload none
                .ok { token with alg := alg, circuitId := circuitId, zkProof := zkp }

/-- `Token.getMessageHash`: stringify the current header, base64-encode it and
the payload with `btoa`, join with a dot, UTF-8 encode, hash via the external
Hash collaborator (`hashFn`; a `none` result models a rejected promise), and
serialize the integer little-endian. -/
def Token.getMessageHash (hashFn : List Nat → Option Nat) (t : Token) :
    Except JwzError (List Nat) :=
  match btoa (JSVal.stringify (.vObj t.rawHeader)) with
  | none => .error .invalidCharacterError
  | some protectedHeaders =>
    match btoa t.rawPayload with
    | none => .error .invalidCharacterError
    | some payload =>
      match hashFn (textEncode (protectedHeaders ++ "." ++ payload)) with
      | none => .error .hashError
      | some hashInt => .ok (toLittleEndian hashInt)

/-- `Token.compactSerialize`: the guard mirrors the source's
`!this.raw.header || !this.raw.protectedHeaders || !this.zkProof` truthiness
check, then each component is passed through `atob` (as the source does) and
the three results joined with dots. -/
def Token.compactSerialize (t : Token) : Except JwzError String :=
  if jsTruthy (.vObj t.rawHeader) = false ∨ jsTruthyStrOpt t.rawProtectedHeaders = false ∨
      jsTruthy t.zkProof = false then
    .error .serializationIncomplete
  else
    match atob (t.rawProtectedHeaders.getD ""), atob (JSVal.stringify t.zkProof),
        atob t.rawPayload with
    | some serializedProtected, some serializedProof, some serializedPayload =>
      .ok (serializedProtected ++ "." ++ serializedPayload ++ "." ++ serializedProof)
    | _, _, _ => .error .invalidCharacterError

/-- `Token.fullSerialize`: stringify the raw representation (field order as the
source assigns: header, payload, protectedHeaders, zkp; absent fields are
omitted as `JSON.stringify` omits `undefined` properties). -/
def Token.fullSerialize (t : Token) : String :=
  JSVal.stringify (.vObj
    ([("header", JSVal.vObj t.rawHeader), ("payload", JSVal.vStr t.rawPayload)]
      ++ (match t.rawProtectedHeaders with
          | some ph => [("protectedHeaders", JSVal.vStr ph)]
          | none => [])
      ++ (match t.rawZkp with
          | some z => [("zkp", JSVal.vStr z)]
          | none => [])))

/-- The first step of `prove`: serialize the current header mapping and store
it as `raw.protectedHeaders` (lines 147–149 of the source). -/
def Token.withFrozenHeaders (t : Token) : Token :=
  { t with rawProtectedHeaders := some (JSVal.stringify (.vObj t.rawHeader)) }

/-- The proof-storing step of `prove`: set `zkProof` to the proof object and
`raw.zkp` to its serialized text (lines 164–167 of the source). -/
def Token.withProof (t : Token) (proof : JSVal) : Token :=
  { t with zkProof := proof, rawZkp := some (JSVal.stringify proof) }

/-- `Token.prove`, as a state transformer returning the token state after the
call together with the result (an `Except` error models a thrown exception or
rejected promise; the state records the mutations performed before the
failure). -/
def Token.prove (hashFn : List Nat → Option Nat) (provingKey wasm : List Nat)
    (t : Token) : Token × Except JwzError String :=
  let t1 : Token := t.withFrozenHeaders
  match t1.getMessageHash hashFn with
  | .error e => (t1, .error e)
  | .ok msgHash =>
    match t1.inputsPreparer with
    | none => (t1, .error .prepareFunctionMissing)
    | some preparer =>
      let inputs := prepare preparer msgHash t1.circuitId
      match t1.method.prove inputs provingKey wasm with
      | none => (t1, .error .methodProveError)
      | some proof =>
        let t2 : Token := t1.withProof proof
        (t2, t2.compactSerialize)

/-- `Token.verify`: recompute the message hash from the current header and
payload, then delegate to the method's `verify`.  The source's method body
performs no assignment, so it is modelled as a pure function of the token. -/
def Token.verify (hashFn : List Nat → Option Nat) (verificationKey : List Nat)
    (t : Token) : Except JwzError Bool :=
  match t.getMessageHash hashFn with
  | .error e => .error e
  | .ok msgHash =>
    match t.method.verify msgHash t.zkProof verificationKey with
    | none => .error .methodVerifyError
    | some b => .ok b

/-- The decode-and-sanitize tail of compact parsing: `atob` each of the three
segments (recovering protected-headers text, payload text and proof text),
build a raw token with an empty header object, and sanitize it. -/
def decodeSegmentsAndSanitize (getMethod : JSVal → Option ProvingMethod)
    (p0 p1 p2 : String) : Except JwzError Token :=
  match atob p0, atob p1, atob p2 with
  | some rawProtected, some rawPayload, some proof =>
    RawJSONWebZeroknowledge.sanitized getMethod
      { payload := rawPayload, protectedHeaders := rawProtected,
        header := .vObj [], zkp := proof }
  | _, _, _ => .error .invalidCharacterError

/-- `Token.parseCompact`: split on dots, fail unless exactly three segments,
then decode and sanitize. -/
def parseCompact (getMethod : JSVal → Option ProvingMethod) (tokenStr : String) :
    Except JwzError Token :=
  match jsSplitDot tokenStr with
  | [p0, p1, p2] => decodeSegmentsAndSanitize getMethod p0 p1 p2
  | _ => .error .invalidCompactSegments

/-- `Token.parseFull`: parse the whole string as JSON and sanitize the four
raw fields. -/
def parseFull (getMethod : JSVal → Option ProvingMethod) (tokenStr : String) :
    Except JwzError Token :=
  match jsonParse tokenStr with
  | none => .error .headerParseError
  | some v =>
    match jsGet v "payload", jsGet v "protectedHeaders", jsGet v "zkp" with
    | some (.vStr payload), some (.vStr protectedHeaders), some (.vStr zkp) =>
      RawJSONWebZeroknowledge.sanitized getMethod
        { payload := payload, protectedHeaders := protectedHeaders,
          header := (jsGet v "header").getD .vUndefined, zkp := zkp }
    | _, _, _ => .error .typeError

deriving instance DecidableEq for Except

/-- A concrete proving method for the concrete evaluations below: it always
produces the proof object with one member and always verifies. -/
def methodM1 : ProvingMethod :=
  { alg := "m1", circuitId := "c1",
    prove := fun _ _ _ => some (.vObj [("pi_a", .vStr "x")]),
    verify := fun _ _ _ => some true }

/-- A concrete registry resolving only the alg string "m1". -/
def getMethodM1 : JSVal → Option ProvingMethod
  | .vStr "m1" => some methodM1
  | _ => none

/-- A hash collaborator that always returns the integer 7. -/
def hf7 : List Nat → Option Nat := fun _ => some 7

/-- A hash collaborator whose promise always rejects. -/
def hfNone : List Nat → Option Nat := fun _ => none

/-- A token with an inputs-preparer bound and a method whose proving always
succeeds. -/
def tokC1 : Token := Token.new methodM1 "payload" (some (fun _ _ => [1, 2]))

/-- A token with no inputs-preparer bound. -/
def tokNoPrep : Token := Token.new methodM1 "p" none

/-- A raw token whose protected header lists crit = ["circuitId"], with the
listed name (and alg) present as header keys. -/
def rawAllCritPresent : RawJSONWebZeroknowledge :=
  { payload := "x",
    protectedHeaders := "\x7b\"alg\":\"m1\",\"circuitId\":\"c1\",\"crit\":[\"circuitId\"]\x7d",
    header := .vObj [],
    zkp := "\x7b\x7d" }

/-- A raw token whose protected header lacks the crit key entirely. -/
def rawNoCrit : RawJSONWebZeroknowledge :=
  { payload := "x",
    protectedHeaders := "\x7b\"alg\":\"m1\"\x7d",
    header := .vObj [],
    zkp := "\x7b\x7d" }

/-- Freezing the headers does not change the message hash: `getMessageHash`
reads only the current header mapping and the payload. -/
theorem withFrozenHeaders_getMessageHash (hashFn : List Nat → Option Nat) (t : Token) :
    t.withFrozenHeaders.getMessageHash hashFn = t.getMessageHash hashFn := rfl

/-- Freezing the headers does not change the bound inputs-preparer. -/
theorem withFrozenHeaders_inputsPreparer (t : Token) :
    t.withFrozenHeaders.inputsPreparer = t.inputsPreparer := rfl

/-- Freezing the headers does not change the bound method. -/
theorem withFrozenHeaders_method (t : Token) :
    t.withFrozenHeaders.method = t.method := rfl

/-- Freezing the headers does not change the circuit identifier. -/
theorem withFrozenHeaders_circuitId (t : Token) :
    t.withFrozenHeaders.circuitId = t.circuitId := rfl

/-- When the message-hash computation fails, `prove` stops there: the state
has only the protected headers overwritten and the error propagates. -/
theorem prove_of_hash_error (hashFn : List Nat → Option Nat) (pk w : List Nat)
    (t : Token) (e : JwzError) (hgm : t.getMessageHash hashFn = .error e) :
    t.prove hashFn pk w = (t.withFrozenHeaders, .error e) := by
  simp only [Token.prove, withFrozenHeaders_getMessageHash, hgm]

/-- When hashing succeeds but no inputs-preparer is bound, `prove` fails with
the prepare-function-missing error, the state having only the protected
headers overwritten. -/
theorem prove_of_no_preparer (hashFn : List Nat → Option Nat) (pk w : List Nat)
    (t : Token) (msg : List Nat) (hgm : t.getMessageHash hashFn = .ok msg)
    (hprep : t.inputsPreparer = none) :
    t.prove hashFn pk w = (t.withFrozenHeaders, .error .prepareFunctionMissing) := by
  simp only [Token.prove, withFrozenHeaders_getMessageHash, hgm,
    withFrozenHeaders_inputsPreparer, hprep]

/-- When the method's proving fails, `prove` fails with the corresponding
error, the state having only the protected headers overwritten. -/
theorem prove_of_method_fail (hashFn : List Nat → Option Nat) (pk w : List Nat)
    (t : Token) (msg : List Nat) (preparer : ProofInputsPreparerHandlerFunc)
    (hgm : t.getMessageHash hashFn = .ok msg)
    (hprep : t.inputsPreparer = some preparer)
    (hmp : t.method.prove (prepare preparer msg t.circuitId) pk w = none) :
    t.prove hashFn pk w = (t.withFrozenHeaders, .error .methodProveError) := by
  simp only [Token.prove, withFrozenHeaders_getMessageHash, hgm,
    withFrozenHeaders_inputsPreparer, hprep, withFrozenHeaders_method,
    withFrozenHeaders_circuitId, hmp]

/-- When every step up to proving succeeds, `prove` stores the proof object
and its serialization and returns the compact serialization of the new
state. -/
theorem prove_of_success (hashFn : List Nat → Option Nat) (pk w : List Nat)
    (t : Token) (msg : List Nat) (preparer : ProofInputsPreparerHandlerFunc) (proof : JSVal)
    (hgm : t.getMessageHash hashFn = .ok msg)
    (hprep : t.inputsPreparer = some preparer)
    (hmp : t.method.prove (prepare preparer msg t.circuitId) pk w = some proof) :
    t.prove hashFn pk w =
      (t.withFrozenHeaders.withProof proof,
       (t.withFrozenHeaders.withProof proof).compactSerialize) := by
  simp only [Token.prove, withFrozenHeaders_getMessageHash, hgm,
    withFrozenHeaders_inputsPreparer, hprep, withFrozenHeaders_method,
    withFrozenHeaders_circuitId, hmp]

/-- `textEncode` distributes over string concatenation. -/
theorem textEncode_append (a b : String) :
    textEncode (a ++ b) = textEncode a ++ textEncode b := by
  simp [textEncode, String.data_append]

/-- C1: REFUTED AS A CODE BUG.  The claim (round-trip: parsing the compact
serialization of a proved token reproduces its alg, circuitId, payload and
proof) matches the source comment "base64 encoded headers, payload and
proof", but `compactSerialize` applies `atob` (base64 DECODE) to the plain
JSON texts.  On the concrete proved token `tokC1` (headers frozen, proof
object stored) serialization throws InvalidCharacterError — the header JSON
is not base64 — so the round trip is impossible. -/
theorem compactSerialize_decode_bug :
    (tokC1.prove hf7 [] []).1.rawProtectedHeaders
        = some (JSVal.stringify (.vObj tokC1.rawHeader))
    ∧ (tokC1.prove hf7 [] []).1.zkProof = JSVal.vObj [("pi_a", JSVal.vStr "x")]
    ∧ (tokC1.prove hf7 [] []).1.compactSerialize = .error .invalidCharacterError
    ∧ (tokC1.prove hf7 [] []).2 = .error .invalidCharacterError :=
  ⟨rfl, rfl, rfl, rfl⟩

/-- C2: REFUTED AS A CODE BUG.  The claim says `sanitized()` succeeds past
the crit check whenever every name in the crit list is present as a header
key.  The source iterates `Object.keys(criticalHeaders)` — for the
array-valued crit list these are the index strings "0", "1", …, not the
listed names — so on `rawAllCritPresent` (crit = ["circuitId"], with both
"alg" and "circuitId" present) sanitization still fails, with
CriticalHeaderMissing("0"). -/
theorem sanitized_crit_index_bug :
    (jsonParse rawAllCritPresent.protectedHeaders).getD .vUndefined
        = JSVal.vObj [("alg", .vStr "m1"), ("circuitId", .vStr "c1"),
            ("crit", .vArr [.vStr "circuitId"])]
    ∧ rawAllCritPresent.sanitized getMethodM1 = .error (.criticalHeaderMissing "0") :=
  ⟨rfl, rfl⟩

/-- C4: for every token, `getMessageHash` hashes exactly the UTF-8/ASCII
bytes of base64(serialized current header) ++ "." ++ base64(payload) and
returns the hash integer serialized as the fixed-width little-endian byte
sequence. -/
theorem getMessageHash_canonical (hashFn : List Nat → Option Nat) (t : Token)
    (encHeader encPayload : String) (n : Nat)
    (hh : btoa (JSVal.stringify (.vObj t.rawHeader)) = some encHeader)
    (hp : btoa t.rawPayload = some encPayload)
    (hn : hashFn (textEncode encHeader ++ textEncode "." ++ textEncode encPayload) = some n) :
    t.getMessageHash hashFn = .ok (toLittleEndian n) := by
  simp only [Token.getMessageHash, hh, hp, textEncode_append, hn]

/-- Witness for C4 at a concrete token and hash collaborator. -/
theorem getMessageHash_canonical_witness :
    (Token.new methodM1 "ab" none).getMessageHash hf7 = .ok (toLittleEndian 7) :=
  getMessageHash_canonical hf7 (Token.new methodM1 "ab" none)
    ((btoa (JSVal.stringify (.vObj (Token.new methodM1 "ab" none).rawHeader))).getD "")
    ((btoa "ab").getD "") 7 (by rfl) (by rfl) (by rfl)

/-- C6: `verify` recomputes the message hash from the current header and
payload state and returns exactly the boolean the bound method's `verify`
returns; the embedding is a pure function of the token (the source's method
body performs no assignment), so no state is mutated and nothing is cached. -/
theorem verify_delegates_to_method (hashFn : List Nat → Option Nat)
    (vk : List Nat) (t : Token) (msg : List Nat) (b : Bool)
    (hgm : t.getMessageHash hashFn = .ok msg)
    (hv : t.method.verify msg t.zkProof vk = some b) :
    t.verify hashFn vk = .ok b := by
  simp only [Token.verify, hgm, hv]

/-- Witness for C6 at a concrete token, hash collaborator and key. -/
theorem verify_delegates_to_method_witness :
    tokNoPrep.verify hf7 [] = .ok true :=
  verify_delegates_to_method hf7 [] tokNoPrep (toLittleEndian 7) true (by rfl) (by rfl)

/-- C10: for every raw token whose parsed protected header lacks the crit
key (so reading it yields `undefined`, or the header itself is a non-object
on which the read throws), `sanitized` never succeeds: enumerating
`Object.keys` of the absent crit list throws, so sanitization always ends in
an error. -/
theorem sanitized_missing_crit_always_fails (getMethod : JSVal → Option ProvingMethod)
    (r : RawJSONWebZeroknowledge) (headers : JSVal)
    (hparse : jsonParse r.protectedHeaders = some headers)
    (hcrit : jsGet headers headerCritical = some JSVal.vUndefined ∨
      jsGet headers headerCritical = none) :
    ∃ e, r.sanitized getMethod = .error e := by
  by_cases hp : r.payload = ""
  · exact ⟨.missingPayload, by simp only [RawJSONWebZeroknowledge.sanitized, if_pos hp]⟩
  · rcases hcrit with h | h
    · exact ⟨.typeError, by
        simp only [RawJSONWebZeroknowledge.sanitized, if_neg hp, hparse, h, jsObjectKeys]⟩
    · exact ⟨.typeError, by
        simp only [RawJSONWebZeroknowledge.sanitized, if_neg hp, hparse, h]⟩

/-- Witness for C10 at a concrete raw token without a crit key. -/
theorem sanitized_missing_crit_always_fails_witness :
    ∃ e, rawNoCrit.sanitized getMethodM1 = .error e :=
  sanitized_missing_crit_always_fails getMethodM1 rawNoCrit
    ((jsonParse rawNoCrit.protectedHeaders).getD .vUndefined) (by rfl) (Or.inl (by rfl))

/-- Sanitization never produces the invalid-segments error: its error set is
disjoint from the compact-segment check. -/
theorem sanitized_ne_invalidCompactSegments (getMethod : JSVal → Option ProvingMethod)
    (r : RawJSONWebZeroknowledge) :
    r.sanitized getMethod ≠ .error .invalidCompactSegments := by
  intro h
  simp only [RawJSONWebZeroknowledge.sanitized] at h
  repeat' split at h
  all_goals simp_all

/-- Decoding three segments and sanitizing never produces the
invalid-segments error either. -/
theorem decodeSegments_ne_invalidCompactSegments (getMethod : JSVal → Option ProvingMethod)
    (p0 p1 p2 : String) :
    decodeSegmentsAndSanitize getMethod p0 p1 p2 ≠ .error .invalidCompactSegments := by
  intro h
  simp only [decodeSegmentsAndSanitize] at h
  repeat' split at h
  · exact sanitized_ne_invalidCompactSegments getMethod _ h
  all_goals simp_all

/-- C3 counterexample: after a failed prove (no inputs-preparer bound), the
token has its header and protected-headers text present while its proof was
never produced (`zkProof` still the default empty object), yet
`compactSerialize` does NOT fail with the serialization-incomplete error: the
default empty proof object is truthy, so the guard passes and the call throws
InvalidCharacterError from `atob` instead. -/
theorem compactSerialize_incomplete_counterexample :
    (tokNoPrep.prove hf7 [] []).2 = .error .prepareFunctionMissing
    ∧ (tokNoPrep.prove hf7 [] []).1.zkProof = JSVal.vObj []
    ∧ (tokNoPrep.prove hf7 [] []).1.compactSerialize ≠ .error .serializationIncomplete :=
  ⟨rfl, rfl, by decide⟩

/-- C3 (amended): `compactSerialize` fails with the serialization-incomplete
error iff the protected-headers text is absent or empty, or the stored proof
value is falsy — the header conjunct of the source's guard never fires (the
constructor always sets a header object), and the default empty proof object
counts as present; in particular a fresh, never-proved token always fails
this way, via its absent protected-headers text. -/
theorem compactSerialize_incomplete_iff :
    (∀ t : Token, t.compactSerialize = .error .serializationIncomplete ↔
      (jsTruthyStrOpt t.rawProtectedHeaders = false ∨ jsTruthy t.zkProof = false))
    ∧ ∀ (m : ProvingMethod) (p : String) (pr : Option ProofInputsPreparerHandlerFunc),
        (Token.new m p pr).compactSerialize = .error .serializationIncomplete := by
  constructor
  · intro t
    cases hA : jsTruthyStrOpt t.rawProtectedHeaders
    · simp [Token.compactSerialize, hA]
    · cases hB : jsTruthy t.zkProof
      · simp [Token.compactSerialize, hB]
      · have hobj : jsTruthy (JSVal.vObj t.rawHeader) = true := rfl
        have hcond : ¬(jsTruthy (JSVal.vObj t.rawHeader) = false ∨
            jsTruthyStrOpt t.rawProtectedHeaders = false ∨ jsTruthy t.zkProof = false) := by
          simp [hobj, hA, hB]
        simp only [Token.compactSerialize, if_neg hcond]
        constructor
        · intro h
          rcases ha : atob (t.rawProtectedHeaders.getD "") with _ | s1 <;>
            rcases hb : atob (JSVal.stringify t.zkProof) with _ | s2 <;>
            rcases hc : atob t.rawPayload with _ | s3 <;>
            simp [ha, hb, hc] at h
        · intro h
          rcases h with h | h
          · exact Bool.noConfusion h
          · exact Bool.noConfusion h
  · intro m p pr
    rfl

/-- C5 counterexample: on a token with no inputs-preparer bound, a failing
hash collaborator makes `prove` fail with the hash error, not the
prepare-function-missing error — the hash is computed before the preparer
check. -/
theorem prove_no_preparer_counterexample :
    tokNoPrep.inputsPreparer = none
    ∧ (tokNoPrep.prove hfNone [] []).2 ≠ .error .prepareFunctionMissing :=
  ⟨rfl, by decide⟩

/-- C5 (amended): for every token with no inputs-preparer bound whose
message-hash computation succeeds, `prove` fails with the
prepare-function-missing error, the state having only the protected headers
overwritten; the outcome is the same for every replacement of the method's
prove strategy, which is therefore never invoked. -/
theorem prove_no_preparer_fails (hashFn : List Nat → Option Nat) (pk w : List Nat)
    (t : Token) (msg : List Nat)
    (hprep : t.inputsPreparer = none)
    (hgm : t.getMessageHash hashFn = .ok msg) :
    t.prove hashFn pk w = (t.withFrozenHeaders, .error .prepareFunctionMissing)
    ∧ ∀ f, ({ t with method := { t.method with prove := f } } : Token).prove hashFn pk w
        = (({ t with method := { t.method with prove := f } } : Token).withFrozenHeaders,
           .error .prepareFunctionMissing) :=
  ⟨prove_of_no_preparer hashFn pk w t msg hgm hprep,
   fun _ => prove_of_no_preparer hashFn pk w _ msg hgm hprep⟩

/-- Witness for C5 (amended) at a concrete token and hash collaborator. -/
theorem prove_no_preparer_fails_witness :
    tokNoPrep.prove hf7 [] [] = (tokNoPrep.withFrozenHeaders, .error .prepareFunctionMissing) :=
  (prove_no_preparer_fails hf7 [] [] tokNoPrep (toLittleEndian 7) rfl (by rfl)).1

/-- C7: if `prove` fails at the hash computation, the missing-preparer check,
or the method's proving, the stored proof state (`zkProof` and the raw
serialized proof field) is unchanged from before the call, and the call
returns an error. -/
theorem prove_failure_preserves_proof_state (hashFn : List Nat → Option Nat)
    (pk w : List Nat) (t : Token)
    (hfail : (∃ e, t.getMessageHash hashFn = .error e) ∨ t.inputsPreparer = none ∨
      ∀ inputs, t.method.prove inputs pk w = none) :
    (t.prove hashFn pk w).1.zkProof = t.zkProof
    ∧ (t.prove hashFn pk w).1.rawZkp = t.rawZkp
    ∧ ∃ e, (t.prove hashFn pk w).2 = .error e := by
  rcases hgm : t.getMessageHash hashFn with e | msg
  · rw [prove_of_hash_error hashFn pk w t e hgm]
    exact ⟨rfl, rfl, e, rfl⟩
  · rcases hprep : t.inputsPreparer with _ | preparer
    · rw [prove_of_no_preparer hashFn pk w t msg hgm hprep]
      exact ⟨rfl, rfl, .prepareFunctionMissing, rfl⟩
    · have hmp : t.method.prove (prepare preparer msg t.circuitId) pk w = none := by
        rcases hfail with ⟨e, he⟩ | hnone | hall
        · rw [hgm] at he; exact Except.noConfusion he
        · rw [hprep] at hnone; exact Option.noConfusion hnone
        · exact hall _
      rw [prove_of_method_fail hashFn pk w t msg preparer hgm hprep hmp]
      exact ⟨rfl, rfl, .methodProveError, rfl⟩

/-- Witness for C7 at a concrete token with the missing-preparer failure. -/
theorem prove_failure_preserves_proof_state_witness :
    (tokNoPrep.prove hf7 [] []).1.zkProof = tokNoPrep.zkProof
    ∧ (tokNoPrep.prove hf7 [] []).1.rawZkp = tokNoPrep.rawZkp
    ∧ ∃ e, (tokNoPrep.prove hf7 [] []).2 = .error e :=
  prove_failure_preserves_proof_state hf7 [] [] tokNoPrep (Or.inr (Or.inl rfl))

/-- C8: compact parsing fails with the invalid-segments error exactly when
splitting the input on dots does not give three segments, and with exactly
three segments it proceeds to decode the segments and sanitize the resulting
raw token. -/
theorem parseCompact_segments (getMethod : JSVal → Option ProvingMethod) (s : String) :
    (parseCompact getMethod s = .error .invalidCompactSegments ↔ (jsSplitDot s).length ≠ 3)
    ∧ ∀ p0 p1 p2, jsSplitDot s = [p0, p1, p2] →
        parseCompact getMethod s = decodeSegmentsAndSanitize getMethod p0 p1 p2 := by
  have hpc : ∀ l, jsSplitDot s = l → parseCompact getMethod s =
      (match l with
       | [p0, p1, p2] => decodeSegmentsAndSanitize getMethod p0 p1 p2
       | _ => .error .invalidCompactSegments) := by
    intro l hl
    simp only [parseCompact, hl]
  rcases hsp : jsSplitDot s with _ | ⟨p0, _ | ⟨p1, _ | ⟨p2, _ | ⟨p3, rest⟩⟩⟩⟩ <;>
    rw [hpc _ hsp]
  · exact ⟨by simp, fun q0 q1 q2 hq => by simp at hq⟩
  · exact ⟨by simp, fun q0 q1 q2 hq => by simp at hq⟩
  · exact ⟨by simp, fun q0 q1 q2 hq => by simp at hq⟩
  · constructor
    · constructor
      · intro h
        exact absurd h (decodeSegments_ne_invalidCompactSegments getMethod p0 p1 p2)
      · intro hlen
        exact absurd rfl hlen
    · intro q0 q1 q2 hq
      injection hq with h0 hq
      injection hq with h1 hq
      injection hq with h2 _
      subst h0; subst h1; subst h2
      rfl
  · constructor
    · constructor
      · intro _
        simp only [List.length_cons]
        omega
      · intro _
        rfl
    · intro q0 q1 q2 hq
      simp at hq

/-- Witness for C8 at a two-segment and a three-segment input. -/
theorem parseCompact_segments_witness :
    parseCompact getMethodM1 "A.B" = .error .invalidCompactSegments
    ∧ parseCompact getMethodM1 "QQ.QQ.QQ"
        = decodeSegmentsAndSanitize getMethodM1 "QQ" "QQ" "QQ" :=
  ⟨(parseCompact_segments getMethodM1 "A.B").1.mpr (by decide),
   (parseCompact_segments getMethodM1 "QQ.QQ.QQ").2 "QQ" "QQ" "QQ" (by rfl)⟩

/-- C9: `prove` overwrites the protected-headers text with the serialization
of the current header mapping on every path, the overwrite happening before
the preparer check — in particular a call that fails with the
prepare-function-missing error still leaves the field updated. -/
theorem prove_overwrites_protected_headers (hashFn : List Nat → Option Nat)
    (pk w : List Nat) (t : Token) :
    (t.prove hashFn pk w).1.rawProtectedHeaders
        = some (JSVal.stringify (.vObj t.rawHeader))
    ∧ (t.inputsPreparer = none → ∀ msg, t.getMessageHash hashFn = .ok msg →
        (t.prove hashFn pk w).2 = .error .prepareFunctionMissing) := by
  constructor
  · rcases hgm : t.getMessageHash hashFn with e | msg
    · rw [prove_of_hash_error hashFn pk w t e hgm]; rfl
    · rcases hprep : t.inputsPreparer with _ | preparer
      · rw [prove_of_no_preparer hashFn pk w t msg hgm hprep]; rfl
      · rcases hmp : t.method.prove (prepare preparer msg t.circuitId) pk w with _ | proof
        · rw [prove_of_method_fail hashFn pk w t msg preparer hgm hprep hmp]; rfl
        · rw [prove_of_success hashFn pk w t msg preparer proof hgm hprep hmp]; rfl
  · intro hprep msg hgm
    rw [prove_of_no_preparer hashFn pk w t msg hgm hprep]

/-- Witness for C9 at a concrete token failing with the missing-preparer
error. -/
theorem prove_overwrites_protected_headers_witness :
    (tokNoPrep.prove hf7 [] []).1.rawProtectedHeaders
        = some (JSVal.stringify (.vObj tokNoPrep.rawHeader))
    ∧ (tokNoPrep.prove hf7 [] []).2 = .error .prepareFunctionMissing :=
  ⟨(prove_overwrites_protected_headers hf7 [] [] tokNoPrep).1,
   (prove_overwrites_protected_headers hf7 [] [] tokNoPrep).2 rfl (toLittleEndian 7) (by rfl)⟩

end Jwz
